import Mathlib

/-
Verification of the session mediator of the ClaudeCondom repository
(`AIWrapper` in the TypeScript source).  The definitions below are a
shallow embedding of the functions of that class: the stream classifier
(`extractMeaningfulContent`), the prompt interceptor (`hasPermissionPrompt`,
`isSafeCommand`, `autoApprovePrompt`), the key-content extractor
(`extractKeyContent`), the output-log ring buffer (`appendOutput`) and the
polling state machine of `processRequest`.  JavaScript regular expressions
are embedded through a small explicit pattern language (`Pat`) with the
exact pattern tables of the source; JS `\s` and `\w` classes are embedded
for the character ranges the program manipulates (ASCII plus the terminal
glyphs appearing in the tables).  String lengths are counted in code
points, as all relevant literals lie in the basic plane this coincides
with the JS UTF-16 count on the inputs considered here.
-/

/-- JS `\s` whitespace class (the code-relevant subset: space, tab,
newline, carriage return, vertical tab, form feed). -/
def wsChar (c : Char) : Bool :=
  c == ' ' || c == '\t' || c == '\n' || c == '\r' || c == '\x0b' || c == '\x0c'

/-- JS `\w` word class `[A-Za-z0-9_]`. -/
def wordChar (c : Char) : Bool :=
  c.isAlpha || c.isDigit || c == '_'

/-- ASCII upper-case letter, the JS `[A-Z]` class. -/
def isUpperAscii (c : Char) : Bool :=
  65 ≤ c.toNat && c.toNat ≤ 90

/-- JS `String.prototype.includes`: substring containment. -/
def containsSub (s pat : String) : Bool :=
  decide (pat.data <:+: s.data)

/-- JS `String.prototype.startsWith`. -/
def startsWithS (s pat : String) : Bool :=
  decide (pat.data <+: s.data)

/-- Drop elements satisfying `p` from the end of a list. -/
def dropWhileEndL (p : Char → Bool) (cs : List Char) : List Char :=
  (cs.reverse.dropWhile p).reverse

/-- JS `String.prototype.trim` (on the whitespace subset above). -/
def jsTrimL (cs : List Char) : List Char :=
  dropWhileEndL wsChar (cs.dropWhile wsChar)

/-- JS `String.prototype.trim` on strings. -/
def jsTrim (s : String) : String :=
  ⟨jsTrimL s.data⟩

/-- JS `split('\n')` on character lists. -/
def splitOnNl : List Char → List (List Char)
  | [] => [[]]
  | '\n' :: rest => [] :: splitOnNl rest
  | c :: rest =>
    match splitOnNl rest with
    | h :: t => (c :: h) :: t
    | [] => [[c]]

/-- JS `split('\n')` on strings. -/
def splitLines (s : String) : List String :=
  (splitOnNl s.data).map (fun l => ⟨l⟩)

/-- JS `Array.prototype.join('\n')`. -/
def joinNl : List String → String
  | [] => ""
  | [s] => s
  | s :: rest => s ++ "\n" ++ joinNl rest

/-- JS `Array.prototype.join(' ')`. -/
def joinSpace : List String → String
  | [] => ""
  | [s] => s
  | s :: rest => s ++ " " ++ joinSpace rest

/-- JS `String.prototype.toLowerCase` (ASCII range, which covers the
keyword table it is compared against). -/
def toLowerS (s : String) : String :=
  ⟨s.data.map Char.toLower⟩

/-- JS truthiness of an optional string field (`undefined` and `''` are
falsy). -/
def jsTruthy : Option String → Bool
  | none => false
  | some s => !s.isEmpty

/-- JS `a || b` defaulting for an optional string. -/
def jsOr (o : Option String) (d : String) : String :=
  match o with
  | none => d
  | some s => if s.isEmpty then d else s

/-- Pattern language covering the regular expressions appearing in the
source: literal runs, `\s*`, `\s+`, `.*` (not crossing `'\n'`), a
single-character class, a starred character class, `\w+`, a literal
alternation, and the end anchor `$`. -/
inductive Pat
  | lit (s : String)
  | ws0
  | ws1
  | any
  | cls (s : String)
  | cstar (s : String)
  | word1
  | alts (l : List String)
  | eos
deriving DecidableEq

/-- Backtracking matcher for a pattern sequence against a character list,
anchored at the start of the list.  `fuel` bounds the recursion; every
recursive call strictly decreases `2 * cs.length + ps.length`, so a fuel of
`2 * cs.length + ps.length + 1` (used by `matchHere`) is always enough. -/
def matchHereF : Nat → List Pat → List Char → Bool
  | 0, _, _ => false
  | _ + 1, [], _ => true
  | f + 1, .lit l :: ps, cs =>
    decide (l.data <+: cs) && matchHereF f ps (cs.drop l.data.length)
  | f + 1, .ws0 :: ps, cs =>
    matchHereF f ps cs ||
      (match cs with
       | [] => false
       | c :: rest => wsChar c && matchHereF f (.ws0 :: ps) rest)
  | f + 1, .ws1 :: ps, cs =>
    (match cs with
     | [] => false
     | c :: rest => wsChar c && matchHereF f (.ws0 :: ps) rest)
  | f + 1, .any :: ps, cs =>
    matchHereF f ps cs ||
      (match cs with
       | [] => false
       | c :: rest => (!(c == '\n')) && matchHereF f (.any :: ps) rest)
  | f + 1, .cls s :: ps, cs =>
    (match cs with
     | [] => false
     | c :: rest => s.data.contains c && matchHereF f ps rest)
  | f + 1, .cstar s :: ps, cs =>
    matchHereF f ps cs ||
      (match cs with
       | [] => false
       | c :: rest => s.data.contains c && matchHereF f (.cstar s :: ps) rest)
  | f + 1, .word1 :: ps, cs =>
    (match cs with
     | [] => false
     | c :: rest => wordChar c && (matchHereF f ps rest || matchHereF f (.word1 :: ps) rest))
  | f + 1, .alts l :: ps, cs =>
    l.any (fun a => decide (a.data <+: cs) && matchHereF f ps (cs.drop a.data.length))
  | f + 1, .eos :: ps, cs =>
    cs.isEmpty && matchHereF f ps cs

/-- Anchored match with sufficient fuel. -/
def matchHere (ps : List Pat) (cs : List Char) : Bool :=
  matchHereF (2 * cs.length + ps.length + 1) ps cs

/-- Unanchored match: try every start position (JS `RegExp.prototype.test`
for a pattern without `^`). -/
def matchScan (ps : List Pat) : List Char → Bool
  | [] => matchHere ps []
  | c :: rest => matchHere ps (c :: rest) || matchScan ps rest

/-- Unanchored regex test on a string. -/
def testPat (ps : List Pat) (s : String) : Bool :=
  matchScan ps s.data

/-- Regex `^[✻✽✶*✢·⚒]\s*\w+…` of `extractMeaningfulContent`: an ephemeral
"thinking animation" line (leading glyph, optional spacing, a word, an
ellipsis). -/
def animPat : List Pat :=
  [.cls "✻✽✶*✢·⚒", .ws0, .word1, .lit "…"]

/-- The animation-line test of `extractMeaningfulContent` (`line.match`
with the anchored regex above). -/
def isAnimationLine (line : String) : Bool :=
  matchHere animPat line.data

/-- Regex `^(\?.*for shortcuts|Press Ctrl-C|Try "refactor|Auto-updating to v|✗.*Auto-update failed)$`:
the static UI chrome table of `extractMeaningfulContent`. -/
def isUINoise (line : String) : Bool :=
  matchHere [.lit "?", .any, .lit "for shortcuts", .eos] line.data ||
  matchHere [.lit "Press Ctrl-C", .eos] line.data ||
  matchHere [.lit "Try \"refactor", .eos] line.data ||
  matchHere [.lit "Auto-updating to v", .eos] line.data ||
  matchHere [.lit "✗", .any, .lit "Auto-update failed", .eos] line.data

/-- Box-drawing characters of the framing-strip regexes
`^[│┌┐└┘├┤┬┴┼─═║╔╗╚╝╠╣╦╩╬╭╮╰╯\s]*` / `[…]*$`. -/
def boxChar (c : Char) : Bool :=
  "│┌┐└┘├┤┬┴┼─═║╔╗╚╝╠╣╦╩╬╭╮╰╯".data.contains c

/-- The character class of the framing regexes (box chars or whitespace). -/
def boxOrWs (c : Char) : Bool :=
  boxChar c || wsChar c

/-- Length of a match of `\(\d+s\s*·.*?\)` starting at the head of `cs`:
the lazy `.*?` stops at the first `')'` and `.` does not cross `'\n'`. -/
def lazyToParen : List Char → Option Nat
  | [] => none
  | ')' :: _ => some 1
  | c :: rest => if c == '\n' then none else (lazyToParen rest).map (· + 1)

/-- Anchored match length of the timing-indicator regex
`\(\d+s\s*·.*?\)`. -/
def timingAt (cs : List Char) : Option Nat :=
  match cs with
  | '(' :: r1 =>
    let d := r1.takeWhile Char.isDigit
    if d.isEmpty then none
    else
      match r1.drop d.length with
      | 's' :: r2 =>
        let w := r2.takeWhile wsChar
        (match r2.drop w.length with
         | '·' :: r3 =>
           (lazyToParen r3).map (fun k => 1 + d.length + 1 + w.length + 1 + k)
         | _ => none)
      | _ => none
  | _ => none

/-- JS `String.prototype.replace` with the timing regex (no `g` flag):
remove the first match, keep everything else. -/
def removeTimingAux : List Char → List Char
  | [] => []
  | c :: rest =>
    match timingAt (c :: rest) with
    | some k => (c :: rest).drop k
    | none => c :: removeTimingAux rest

/-- The line-cleaning cascade of `extractMeaningfulContent`: strip leading
box/whitespace framing, strip trailing framing, remove the first timing
indicator, then trim. -/
def cleanMeaningfulLine (line : String) : String :=
  ⟨jsTrimL (removeTimingAux (dropWhileEndL boxOrWs (line.data.dropWhile boxOrWs)))⟩

/-- `AIWrapper.extractMeaningfulContent`: the stream classifier.  Skips
blank lines, animation lines and static UI chrome; cleans the remaining
lines and keeps those whose cleaned length exceeds 2. -/
def extractMeaningfulContent : List String → List String
  | [] => []
  | line :: rest =>
    if (jsTrim line).isEmpty then extractMeaningfulContent rest
    else if isAnimationLine line then extractMeaningfulContent rest
    else if isUINoise line then extractMeaningfulContent rest
    else
      if 2 < (cleanMeaningfulLine line).length then
        cleanMeaningfulLine line :: extractMeaningfulContent rest
      else extractMeaningfulContent rest

/-- The pattern table of `AIWrapper.hasPermissionPrompt`, in source
order. -/
def promptPatterns : List (List Pat) :=
  [[.lit "Do you want to proceed?"],
   [.lit "❯", .ws0, .lit "1.", .ws0, .lit "Yes"],
   [.lit "2.", .ws0, .lit "Yes", .any, .lit "don't ask again"],
   [.lit "3.", .ws0, .lit "No", .any, .lit "tell Claude"],
   [.lit "Bash command"],
   [.lit "List all files and folders"],
   [.lit "find /home/casey/claude-condom"],
   [.lit "[Y/n]"],
   [.lit "Continue?", .ws0, .lit "("],
   [.lit "Press", .any, .lit "to continue"]]

/-- `AIWrapper.hasPermissionPrompt`: some confirmation-prompt pattern
matches the evidence window. -/
def hasPermissionPrompt (output : String) : Bool :=
  promptPatterns.any (fun ps => testPat ps output)

/-- The allow-list table of `AIWrapper.isSafeCommand`, in source order
(`/find.*-type\s+f/`, `/find.*-type\s+d/`, `/ls\s*/`, `/ls\s+-[lah]*/`,
`/pwd/`, `/head\s+/`, `/tail\s+/`, `/cat\s+.*\.(md|txt|json|js|ts|py)/`,
`/grep\s+/`, `/wc\s+/`, `/file\s+/`). -/
def safeCommandPatterns : List (List Pat) :=
  [[.lit "find", .any, .lit "-type", .ws1, .lit "f"],
   [.lit "find", .any, .lit "-type", .ws1, .lit "d"],
   [.lit "ls", .ws0],
   [.lit "ls", .ws1, .lit "-", .cstar "lah"],
   [.lit "pwd"],
   [.lit "head", .ws1],
   [.lit "tail", .ws1],
   [.lit "cat", .ws1, .any, .lit ".", .alts ["md", "txt", "json", "js", "ts", "py"]],
   [.lit "grep", .ws1],
   [.lit "wc", .ws1],
   [.lit "file", .ws1]]

/-- `AIWrapper.isSafeCommand`: some read-only allow-list pattern matches
the evidence window. -/
def isSafeCommand (output : String) : Bool :=
  safeCommandPatterns.any (fun ps => testPat ps output)

/-- One step of the global sentence regex `[A-Z][^.!?]*[.!?]` after the
leading capital: consume characters outside `[.!?]` up to and including
the first terminator; `none` when no terminator remains. -/
def grabSentence : List Char → Option (List Char × List Char)
  | [] => none
  | c :: rest =>
    if c == '.' || c == '!' || c == '?' then some ([c], rest)
    else
      match grabSentence rest with
      | some (body, rem) => some (c :: body, rem)
      | none => none

/-- All matches of `/[A-Z][^.!?]*[.!?]/g`: scan left to right, resume
after each match.  The fuel equals the input length; every recursive call
consumes at least one character, so it never runs out. -/
def sentencesOfF : Nat → List Char → List String
  | 0, _ => []
  | _ + 1, [] => []
  | f + 1, c :: rest =>
    if isUpperAscii c then
      match grabSentence rest with
      | some (body, rem) => (⟨c :: body⟩ : String) :: sentencesOfF f rem
      | none => sentencesOfF f rest
    else sentencesOfF f rest

/-- JS `fullResponse.match(/[A-Z][^.!?]*[.!?]/g) || []`. -/
def sentencesOf (cs : List Char) : List String :=
  sentencesOfF cs.length cs

/-- The keep condition of `extractKeyContent` on a trimmed line. -/
def keyLine (cleanLine : String) : Bool :=
  startsWithS cleanLine "●" || startsWithS cleanLine "-" ||
  containsSub cleanLine "directory contains" || containsSub cleanLine "files in" ||
  (containsSub cleanLine "." &&
    (containsSub cleanLine "py" || containsSub cleanLine "js" ||
     containsSub cleanLine "md" || containsSub cleanLine "json"))

/-- `AIWrapper.extractKeyContent`: keep marker/listing/filename lines; if
none qualify, fall back to at most three sentence-like fragments. -/
def extractKeyContent (fullResponse : String) : String :=
  let keyContent := ((splitLines fullResponse).map jsTrim).filter keyLine
  if 0 < keyContent.length then joinNl keyContent
  else
    let sentences := sentencesOf fullResponse.data
    let meaningful := sentences.filter (fun s =>
      20 < s.length && !containsSub s "shortcuts" &&
        !containsSub s "Auto-update" && !containsSub s "Try \"")
    joinSpace (meaningful.take 3)

/-- The output-log bound of `startClaudeCode`'s data handler: after an
append, if the buffer holds more than 5000 entries it is cut to its most
recent 2500 (`claudeOutputBuffer.slice(-2500)`). -/
def appendOutput (buf newLines : List String) : List String :=
  if 5000 < (buf ++ newLines).length then
    (buf ++ newLines).drop ((buf ++ newLines).length - 2500)
  else buf ++ newLines

/-- Iterated appends: the output log after a sequence of data events. -/
def appendAll (buf : List String) (batches : List (List String)) : List String :=
  batches.foldl appendOutput buf

/-- No append of the sequence ever pushes the log over the 5000-entry
capacity (so no truncation fires). -/
def noTruncation (buf : List String) : List (List String) → Bool
  | [] => true
  | b :: bs => decide ((buf ++ b).length ≤ 5000) && noTruncation (buf ++ b) bs

/-- Result shape of `OllamaClient.generate`. -/
structure GenResult where
  response : Option String := none
  error : Option String := none
deriving DecidableEq

/-- The success test `result.response && !result.error` used throughout
`AIWrapper` (JS truthiness on both fields). -/
def genOk (r : GenResult) : Bool :=
  jsTruthy r.response && !jsTruthy r.error

/-- Result shape of `AIWrapper.processRequest`
(`{response; source?; error?}`; a pure-error return carries no
response). -/
structure Outcome where
  response : Option String := none
  source : Option String := none
  error : Option String := none
deriving DecidableEq

/-- The clarification prompt composed by `handlePromptViaAni` (exact
template literal of the source). -/
def aniPrompt (userInput claudePrompt personality : String) : String :=
  "\nUser asked: \"" ++ userInput ++ "\"\nClaude is asking for permission: " ++
    claudePrompt ++ "\n\n" ++ personality ++
    "\n\nClaude needs permission to proceed. Please explain to the user what Claude wants to do and ask if they want to proceed. Be helpful and clear about what the command will do.\n    "

/-- The assisted-path prompt (`simplePrompt` of `processRequest`, exact
template literal). -/
def simplePrompt (userInput claudeResponse personality : String) : String :=
  "\nUser asked: \"" ++ userInput ++ "\"\nClaude found: " ++ claudeResponse ++
    "\n\n" ++ personality ++
    "\n\nPlease respond as Ani using the information Claude provided.\n            "

/-- The direct-path prompt (`fullPrompt` of `processRequest`, exact
template literal). -/
def fullPrompt (userInput personality : String) : String :=
  "\nUser Query: " ++ userInput ++ "\n\n" ++ personality ++
    "\n\nPlease respond to the user's query in character.\n    "

/-- The technical-keyword table of `processRequest`, in source order. -/
def technicalKeywords : List String :=
  ["code", "function", "debug", "error", "programming", "algorithm",
   "api", "database", "server", "framework", "library", "bug", "test",
   "file", "files", "read", "write", "edit", "folder", "folders", "directory",
   "see the folder", "view", "list", "ls", "cd", "pwd", "show me",
   "backspace", "typo", "typos", "implementation", "see the", "ability",
   "project", "summary", "what is this", "about", "analyze", "explain"]

/-- The routing test of `processRequest`: the lower-cased input contains
some technical keyword. -/
def isTechnical (userInput : String) : Bool :=
  technicalKeywords.any (fun k => containsSub (toLowerS userInput) k)

/-- The clarifying-suffix rule of `processRequest` for ambiguous
listing/file requests. -/
def enhancedInput (userInput : String) : String :=
  if containsSub (toLowerS userInput) "files" || containsSub (toLowerS userInput) "folder" then
    userInput ++ ". Please actually run the command to show me the real files, don't just describe what you would do."
  else userInput

/-- The pure-Gemma tail of `processRequest`: direct-path outcome from one
secondary-model call (`source = "gemma"`, or a tagged error). -/
def pureGemma (o : String → GenResult) (userInput personality : String) : Outcome :=
  let r := o (fullPrompt userInput personality)
  if jsTruthy r.error then { error := r.error }
  else { response := some (jsOr r.response "No response generated."), source := some "gemma" }

/-- `AIWrapper.handlePromptViaAni`: ask the secondary model to relay the
permission request; `none` on a model error (the catch branch and the
falsy-response branch both yield `null`). -/
def handlePromptViaAni (o : String → GenResult) (userInput claudePrompt personality : String) :
    Option (String × String) :=
  let r := o (aniPrompt userInput claudePrompt personality)
  if genOk r then some (r.response.getD "", "claude+prompt+gemma") else none

/-- `AIWrapper.autoApprovePrompt`, abstracted to the inputs it sends to
the session (each `sendToClaudeCode` call is one element): option `"1"`
for a numbered yes menu, `"Y"` for a bracketed `[Y/n]` prompt, `"y"` for a
`Do you want to proceed?` prompt, in that priority order, and nothing for
any other window. -/
def autoApprovePrompt (output : String) : List String :=
  if containsSub output "❯ 1. Yes" then ["1"]
  else if containsSub output "[Y/n]" then ["Y"]
  else if containsSub output "Do you want to proceed?" then ["y"]
  else []

/-- The evidence window of a polling tick:
`claudeOutputBuffer.slice(-10).join('\n')`. -/
def windowOf (cur : List String) : String :=
  joinNl (cur.drop (cur.length - 10))

/-- Outcome of one iteration of the polling loop of `processRequest`:
continue with updated counters and the session writes made this tick,
return an escalated reply, or leave the loop (`break`). -/
inductive StepRes
  | cont (lastLen sc : Nat) (writes : List String)
  | escalate (resp : String)
  | stop
deriving DecidableEq

/-- One iteration of the polling loop (lines of `processRequest` between
the tick delay and the end of the `for` body).  `cur` is the output log
observed this tick, `lastLen` the previously observed length, `sc` the
stability counter, `initialLen` the request cursor. -/
def loopStep (o : String → GenResult) (userInput personality : String)
    (cur : List String) (lastLen sc initialLen : Nat) : StepRes :=
  if lastLen < cur.length then
    if hasPermissionPrompt (windowOf cur) then
      if isSafeCommand (windowOf cur) then
        .cont cur.length 0 (autoApprovePrompt (windowOf cur))
      else
        match handlePromptViaAni o userInput (windowOf cur) personality with
        | some pr => .escalate pr.1
        | none => .stop
    else .cont cur.length 0 []
  else
    if 6 ≤ sc + 1 && initialLen < cur.length then .stop
    else .cont lastLen (sc + 1) []

/-- How the polling loop ended. -/
inductive LoopExit
  | escalated (resp : String)
  | broke
  | timedOut
deriving DecidableEq

/-- Aggregate result of the polling loop: how it ended, every session
write it performed from the given state on, and the number of iterations
executed. -/
structure LoopOut where
  exit : LoopExit
  writes : List String
  ticks : Nat
deriving DecidableEq

/-- The polling loop of `processRequest` (`for attempt < maxWait`),
unrolled over the remaining fuel.  `bufAt t` is the output log observed at
tick `t`; an exhausted fuel is the timeout exit. -/
def runLoopAux (o : String → GenResult) (userInput personality : String)
    (bufAt : Nat → List String) (initialLen : Nat) :
    Nat → Nat → Nat → Nat → LoopOut
  | 0, attempt, _, _ => ⟨.timedOut, [], attempt⟩
  | fuel + 1, attempt, lastLen, sc =>
    match loopStep o userInput personality (bufAt attempt) lastLen sc initialLen with
    | .cont l s w =>
      let r := runLoopAux o userInput personality bufAt initialLen fuel (attempt + 1) l s
      ⟨r.exit, w ++ r.writes, r.ticks⟩
    | .escalate resp => ⟨.escalated resp, [], attempt + 1⟩
    | .stop => ⟨.broke, [], attempt + 1⟩

/-- `maxWait` of `processRequest`: the tick budget of the polling loop. -/
def maxWait : Nat := 60

/-- `AIWrapper.processRequest`, with the session abstracted to the output
log it exposes: `buf0` is the log at dispatch (its length is the request
cursor), `bufAt t` the log observed at tick `t` (the post-loop read uses
the tick index after the last executed iteration), `running` whether
`claudeProcess` is live.  Returns the outcome together with every input
written to the session (`sendToClaudeCode` calls: the dispatched request,
then any auto-approval tokens). -/
def processRequest (o : String → GenResult) (userInput personality : String)
    (running : Bool) (buf0 : List String) (bufAt : Nat → List String) :
    Outcome × List String :=
  if isTechnical userInput && running then
    let initialLen := buf0.length
    let lr := runLoopAux o userInput personality bufAt initialLen maxWait 0 initialLen 0
    match lr.exit with
    | .escalated resp =>
      ({ response := some resp, source := some "claude+prompt+gemma" },
       enhancedInput userInput :: lr.writes)
    | _ =>
      let finalBuf := bufAt lr.ticks
      let assisted :=
        if initialLen < finalBuf.length then
          let fullResponse := jsTrim (joinNl (finalBuf.drop initialLen))
          let claudeResponse := extractKeyContent fullResponse
          if 10 < claudeResponse.length then
            let r := o (simplePrompt userInput claudeResponse personality)
            if genOk r then
              some ({ response := r.response, source := some "claude+gemma" } : Outcome)
            else none
          else none
        else none
      match assisted with
      | some out => (out, enhancedInput userInput :: lr.writes)
      | none => (pureGemma o userInput personality, enhancedInput userInput :: lr.writes)
  else (pureGemma o userInput personality, [])

/-- Modelled from the spec: the source contains no mutating-verb check;
this predicate encodes the spec's enumerated mutating-verb list (write,
delete, modify, install, create) solely to state the claims that mention
it. -/
def mutatingVerbs : List String :=
  ["write", "delete", "modify", "install", "create"]

/-- Modelled from the spec: the evidence text contains some mutating verb
of the spec's list. -/
def containsMutatingVerb (s : String) : Bool :=
  mutatingVerbs.any (fun v => containsSub s v)

/-- Concrete evidence window: a proceed prompt whose text holds the
mutating verb `delete` and also matches the `ls` allow-list pattern. -/
def wDeleteLs : String := "Do you want to proceed? delete ls"

/-- Concrete evidence window: a bare bracketed confirmation with no
mutating verb and no allow-list match. -/
def wYn : String := "[Y/n]"

/-- Concrete evidence window: a press-to-continue prompt matching the
allow-list via `ls` but none of the three acknowledgement forms. -/
def wPress : String := "Press any key to continue ls"

/-- Concrete evidence window: a proceed prompt with no allow-list
match. -/
def wUnsafe : String := "Do you want to proceed? rm -rf /"

/-- Concrete user input routed to the session (contains the keyword
`file`). -/
def uiDel : String := "delete the old file"

/-- Stub secondary model that never answers usefully. -/
def oStub : String → GenResult := fun _ => {}

/-- Stub secondary model answering every prompt with `ask user`. -/
def oAsk : String → GenResult := fun _ => { response := some "ask user" }

/-- Stub secondary model answering every prompt with `hi`. -/
def oHi : String → GenResult := fun _ => { response := some "hi" }

/-- Fixture input for the assisted path (contains `files`). -/
def uiC6 : String := "show me the files"

/-- Fixture persona text. -/
def personaC6 : String := "P"

/-- Fixture output log: two key-content lines produced at tick 0. -/
def bufC6 : List String := ["● Found files", "- src/index.ts"]

/-- Fixture log schedule: everything arrives before the first tick. -/
def bufAtC6 : Nat → List String := fun _ => bufC6

/-- The key content `extractKeyContent` finds in the fixture log. -/
def keyC6 : String := "● Found files\n- src/index.ts"

/-- Fixture secondary model: errors on the assisted-path prompt, answers
everything else with `hi`. -/
def ollamaC6 : String → GenResult := fun q =>
  if q = simplePrompt uiC6 keyC6 personaC6 then { error := some "boom" }
  else { response := some "hi" }

theorem matchHereF_nil (f : Nat) (cs : List Char) : matchHereF (f + 1) [] cs = true := rfl

theorem matchHereF_lit (f : Nat) (l : String) (ps : List Pat) (cs : List Char) :
    matchHereF (f + 1) (.lit l :: ps) cs =
      (decide (l.data <+: cs) && matchHereF f ps (cs.drop l.data.length)) := rfl

theorem matchHereF_ws0_done (f : Nat) (cs : List Char) :
    matchHereF (f + 2) [.ws0] cs = true := by
  cases cs <;> rfl

theorem matchHere_lit_done (l : String) (cs : List Char) (h : l.data <+: cs) :
    matchHere [.lit l] cs = true := by
  show matchHereF (2 * cs.length + 1 + 1) [.lit l] cs = true
  rw [matchHereF_lit, decide_eq_true h, Bool.true_and]
  exact matchHereF_nil _ _

theorem matchHere_lit_ws0 (l : String) (cs : List Char) (h : l.data <+: cs) :
    matchHere [.lit l, .ws0] cs = true := by
  show matchHereF (2 * cs.length + 2 + 1) [.lit l, .ws0] cs = true
  rw [matchHereF_lit, decide_eq_true h, Bool.true_and]
  exact matchHereF_ws0_done (2 * cs.length) _

theorem matchScan_of_suffix (ps : List Pat) (cs cs' : List Char)
    (hsuf : cs' <:+ cs) (h : matchHere ps cs' = true) : matchScan ps cs = true := by
  induction cs with
  | nil =>
    obtain ⟨w, hw⟩ := hsuf
    obtain ⟨-, h2⟩ := List.append_eq_nil.mp hw
    subst h2
    exact h
  | cons c rest ih =>
    obtain ⟨w, hw⟩ := hsuf
    cases w with
    | nil =>
      simp only [List.nil_append] at hw
      subst hw
      simp [matchScan, h]
    | cons a w' =>
      have h2 : rest = w' ++ cs' := (List.cons.injEq a _ c rest |>.mp hw).2.symm
      have : cs' <:+ rest := ⟨w', h2.symm⟩
      simp [matchScan, ih this]

theorem testPat_lit_of_contains (p s : String) (h : p.data <:+: s.data) :
    testPat [.lit p] s = true := by
  obtain ⟨u, v, huv⟩ := h
  rw [List.append_assoc] at huv
  exact matchScan_of_suffix _ _ (p.data ++ v) ⟨u, huv⟩
    (matchHere_lit_done p (p.data ++ v) ⟨v, rfl⟩)

theorem testPat_lit_ws0_of_contains (p s : String) (h : p.data <:+: s.data) :
    testPat [.lit p, .ws0] s = true := by
  obtain ⟨u, v, huv⟩ := h
  rw [List.append_assoc] at huv
  exact matchScan_of_suffix _ _ (p.data ++ v) ⟨u, huv⟩
    (matchHere_lit_ws0 p (p.data ++ v) ⟨v, rfl⟩)

theorem isSafeCommand_of_ls (s : String) (h : containsSub s "ls" = true) :
    isSafeCommand s = true := by
  apply List.any_eq_true.mpr
  refine ⟨[.lit "ls", .ws0], by simp [safeCommandPatterns], ?_⟩
  exact testPat_lit_ws0_of_contains "ls" s (of_decide_eq_true h)

theorem hasPermissionPrompt_of_yn (s : String) (h : containsSub s "[Y/n]" = true) :
    hasPermissionPrompt s = true := by
  apply List.any_eq_true.mpr
  refine ⟨[.lit "[Y/n]"], by simp [promptPatterns], ?_⟩
  exact testPat_lit_of_contains "[Y/n]" s (of_decide_eq_true h)

theorem windowOf_single (s : String) : windowOf [s] = s := rfl

theorem appendOutput_length (buf b : List String) :
    (appendOutput buf b).length =
      if 5000 < buf.length + b.length then 2500 else buf.length + b.length := by
  unfold appendOutput
  by_cases h : 5000 < (buf ++ b).length
  · rw [if_pos h, List.length_drop]
    rw [List.length_append] at h ⊢
    rw [if_pos h]
    omega
  · rw [if_neg h, List.length_append]
    rw [List.length_append] at h
    rw [if_neg h]

/-- C7: the output log is append-only up to the capacity bound: an append
extends the log in place while the result stays within 5000 entries (so
the length does not decrease), and once the appended log exceeds 5000
entries it is cut to its most recent 2500 entries; in both cases the
result is a suffix of the appended log, so surviving entries are never
reordered. -/
theorem C7_ring_buffer (buf newLines : List String) :
    appendOutput buf newLines <:+ buf ++ newLines ∧
    ((buf ++ newLines).length ≤ 5000 →
      appendOutput buf newLines = buf ++ newLines ∧
      buf.length ≤ (appendOutput buf newLines).length) ∧
    (5000 < (buf ++ newLines).length →
      appendOutput buf newLines =
        (buf ++ newLines).drop ((buf ++ newLines).length - 2500) ∧
      (appendOutput buf newLines).length = 2500) := by
  refine ⟨?_, fun h => ?_, fun h => ?_⟩
  · unfold appendOutput
    split
    · exact List.drop_suffix _ _
    · exact List.suffix_refl _
  · have he : appendOutput buf newLines = buf ++ newLines := by
      unfold appendOutput
      rw [if_neg (by omega)]
    refine ⟨he, ?_⟩
    rw [he, List.length_append]
    omega
  · have he : appendOutput buf newLines =
        (buf ++ newLines).drop ((buf ++ newLines).length - 2500) := by
      unfold appendOutput
      rw [if_pos h]
    refine ⟨he, ?_⟩
    rw [he, List.length_drop]
    omega

theorem C7_ring_buffer_witness :
    appendOutput ["a"] ["b"] = ["a", "b"] ∧
      (["a"] : List String).length ≤ (appendOutput ["a"] ["b"]).length := by
  have h := (C7_ring_buffer ["a"] ["b"]).2.1 (by decide)
  exact ⟨h.1, h.2⟩

/-- C8 counterexample: with the log holding 3000 entries at dispatch (so
the request cursor is 3000), a single arriving chunk of 2001 classified
lines pushes the log to 5001 entries and the truncation cuts it to 2500,
strictly below the cursor — the claimed invariant fails. -/
theorem appendAll_nil (buf : List String) : appendAll buf [] = buf := rfl

theorem appendAll_cons (buf b : List String) (bs : List (List String)) :
    appendAll buf (b :: bs) = appendAll (appendOutput buf b) bs := rfl

theorem C8_cursor_cex :
    (appendAll (List.replicate 3000 "x") [List.replicate 2001 "y"]).length <
      (List.replicate 3000 "x").length := by
  rw [appendAll_cons, appendAll_nil, appendOutput_length]
  simp only [List.length_replicate]
  norm_num

/-- C8 amended: the request cursor can exceed the log length only after a
truncation; the log length never falls below `min cursor 2500`, and as
long as no append since dispatch has pushed the log over the 5000-entry
capacity, the cursor is at most the current log length. -/
theorem C8_cursor_amended (buf : List String) (batches : List (List String)) :
    min buf.length 2500 ≤ (appendAll buf batches).length ∧
    (noTruncation buf batches = true → buf.length ≤ (appendAll buf batches).length) := by
  induction batches generalizing buf with
  | nil =>
    exact ⟨Nat.min_le_left _ _, fun _ => Nat.le_refl _⟩
  | cons b bs ih =>
    have hstep : appendAll buf (b :: bs) = appendAll (appendOutput buf b) bs := rfl
    constructor
    · have h1 : min buf.length 2500 ≤ min (appendOutput buf b).length 2500 := by
        rw [appendOutput_length]
        split <;> omega
      rw [hstep]
      exact Nat.le_trans h1 (ih (appendOutput buf b)).1
    · intro hnt
      simp only [noTruncation, Bool.and_eq_true, decide_eq_true_eq] at hnt
      obtain ⟨hle, hnt'⟩ := hnt
      have he : appendOutput buf b = buf ++ b := by
        unfold appendOutput
        rw [if_neg (by omega)]
      have h2 := (ih (appendOutput buf b)).2 (by rw [he]; exact hnt')
      rw [hstep]
      refine Nat.le_trans ?_ h2
      rw [he, List.length_append]
      omega

theorem C8_cursor_amended_witness :
    min (2 : Nat) 2500 ≤ (appendAll ["a", "b"] [["c"]]).length ∧
      (2 : Nat) ≤ (appendAll ["a", "b"] [["c"]]).length := by
  have h := C8_cursor_amended ["a", "b"] [["c"]]
  exact ⟨h.1, h.2 (by decide)⟩

/-- C9: a chunk consisting solely of ephemeral animation lines (leading
glyph, single word, trailing ellipsis, per the source regex) produces no
classified lines: the stream classifier emits nothing. -/
theorem C9_animation_only (lines : List String)
    (h : ∀ l ∈ lines, isAnimationLine l = true) :
    extractMeaningfulContent lines = [] := by
  induction lines with
  | nil => rfl
  | cons l rest ih =>
    have hl : isAnimationLine l = true := h l (List.mem_cons_self _ _)
    have hr : extractMeaningfulContent rest = [] :=
      ih (fun x hx => h x (List.mem_cons_of_mem _ hx))
    by_cases h0 : (jsTrim l).isEmpty
    · simp [extractMeaningfulContent, h0, hr]
    · simp [extractMeaningfulContent, h0, hl, hr]

theorem C9_animation_only_witness :
    extractMeaningfulContent ["✻ Thinking…", "* Searching…"] = [] :=
  C9_animation_only _ (by decide)

/-- C10 counterexample: `files` does not in fact contain the adjacent
pair `ls` (its letters are `f i l e s`), and the safe-command classifier
rejects the window `files` — the claim's example word fails. -/
theorem C10_ls_cex :
    containsSub "files" "ls" = false ∧ isSafeCommand "files" = false := by
  decide

/-- C10 amended: for every evidence window whose text contains the
two-character substring `ls` anywhere — including inside ordinary words
such as `also` or `tools`, though not `files`, whose letters are not
adjacent — the safe-command classifier returns true, so a detected
confirmation prompt whose window contains such a word is auto-approved
(the loop continues with the auto-approval writes of the window). -/
theorem C10_ls_substring (s : String) (o : String → GenResult) (ui p : String)
    (h : containsSub s "ls" = true) :
    isSafeCommand s = true ∧
    (hasPermissionPrompt s = true →
      loopStep o ui p [s] 0 0 0 = .cont 1 0 (autoApprovePrompt s)) := by
  have hs := isSafeCommand_of_ls s h
  refine ⟨hs, fun hp => ?_⟩
  simp [loopStep, windowOf_single, hp, hs]

theorem C10_ls_substring_witness :
    isSafeCommand "Do you want to proceed? also" = true ∧
      loopStep oStub "u" "p" ["Do you want to proceed? also"] 0 0 0 =
        .cont 1 0 ["y"] := by
  have h := C10_ls_substring "Do you want to proceed? also" oStub "u" "p" (by decide)
  refine ⟨h.1, ?_⟩
  rw [h.2 (by decide)]
  decide

/-- C1 counterexample: the window `Do you want to proceed? delete ls`
contains the mutating verb `delete`, yet because it matches the `ls`
allow-list pattern the interceptor classifies it Safe and the loop step
performs the auto-approval write `y` — no downgrade to Unsafe occurs. -/
theorem C1_mutating_cex :
    hasPermissionPrompt wDeleteLs = true ∧ containsMutatingVerb wDeleteLs = true ∧
    isSafeCommand wDeleteLs = true ∧
    loopStep oStub "u" "p" [wDeleteLs] 0 0 0 = .cont 1 0 ["y"] := by
  decide

/-- C1 amended: a mutating verb in the evidence window forces Unsafe only
when the window matches no read-only allow-list pattern; whenever an
allow-list pattern also matches, the prompt is classified Safe and
auto-approved despite the mutating verb.  The classification is decided
solely by the allow-list match. -/
theorem C1_mutating_amended (o : String → GenResult) (ui p : String)
    (cur : List String) (lastLen sc initialLen : Nat)
    (hgrow : lastLen < cur.length)
    (hp : hasPermissionPrompt (windowOf cur) = true)
    (_hmut : containsMutatingVerb (windowOf cur) = true) :
    (isSafeCommand (windowOf cur) = true →
      loopStep o ui p cur lastLen sc initialLen =
        .cont cur.length 0 (autoApprovePrompt (windowOf cur))) ∧
    (isSafeCommand (windowOf cur) = false →
      loopStep o ui p cur lastLen sc initialLen =
        (match handlePromptViaAni o ui (windowOf cur) p with
         | some pr => .escalate pr.1
         | none => .stop)) := by
  constructor <;> intro hs <;> simp [loopStep, hgrow, hp, hs]

theorem C1_mutating_amended_witness :
    loopStep oStub "u" "p" [wDeleteLs] 0 0 0 =
      .cont 1 0 (autoApprovePrompt wDeleteLs) := by
  exact (C1_mutating_amended oStub "u" "p" [wDeleteLs] 0 0 0 (by decide) (by decide)
    (by decide)).1 (by decide)

/-- C2 counterexample: the bare window `[Y/n]` holds no mutating verb and
is detected as a prompt, but the code classifies it Unsafe (no allow-list
pattern matches) and escalates instead of auto-approving. -/
theorem C2_yn_cex :
    hasPermissionPrompt wYn = true ∧ containsMutatingVerb wYn = false ∧
    isSafeCommand wYn = false ∧
    loopStep oAsk "u" "p" [wYn] 0 0 0 = .escalate "ask user" := by
  decide

/-- C2 amended: a window containing `[Y/n]` is always detected as a
prompt; it is classified Safe and auto-approved exactly when it also
matches the read-only allow-list — the absence of mutating verbs plays no
role — and otherwise it is escalated. -/
theorem C2_yn_amended (s : String) (o : String → GenResult) (ui p : String)
    (h : containsSub s "[Y/n]" = true) :
    hasPermissionPrompt s = true ∧
    (isSafeCommand s = true →
      loopStep o ui p [s] 0 0 0 = .cont 1 0 (autoApprovePrompt s)) ∧
    (isSafeCommand s = false →
      loopStep o ui p [s] 0 0 0 =
        (match handlePromptViaAni o ui s p with
         | some pr => .escalate pr.1
         | none => .stop)) := by
  have hp := hasPermissionPrompt_of_yn s h
  refine ⟨hp, fun hs => ?_, fun hs => ?_⟩ <;> simp [loopStep, windowOf_single, hp, hs]

theorem C2_yn_amended_witness :
    hasPermissionPrompt "[Y/n] ls" = true ∧
      loopStep oStub "u" "p" ["[Y/n] ls"] 0 0 0 = .cont 1 0 ["Y"] := by
  have h := C2_yn_amended "[Y/n] ls" oStub "u" "p" (by decide)
  refine ⟨h.1, ?_⟩
  rw [h.2.1 (by decide)]
  decide

/-- C4 counterexample: the window `Press any key to continue ls` is
detected as a prompt and classified Safe (the `ls` allow-list pattern
matches), but it matches none of the three acknowledgement forms, so the
auto-approval writes nothing at all — rather than exactly one
acknowledgement token. -/
theorem C4_token_cex :
    hasPermissionPrompt wPress = true ∧ isSafeCommand wPress = true ∧
    autoApprovePrompt wPress = [] ∧
    loopStep oStub "u" "p" [wPress] 0 0 0 = .cont 1 0 [] := by
  decide

/-- C4 amended: when a Safe prompt is auto-approved, the session writes
of that tick are exactly the acknowledgement of the matched form in the
code's priority order — `1` when the window holds `❯ 1. Yes`, else `Y`
when it holds `[Y/n]`, else `y` when it holds `Do you want to proceed?` —
and nothing at all for any other detected prompt form; in every case
nothing else is written before polling resumes. -/
theorem C4_token_amended (o : String → GenResult) (ui p : String)
    (cur : List String) (lastLen sc initialLen : Nat)
    (hgrow : lastLen < cur.length)
    (hp : hasPermissionPrompt (windowOf cur) = true)
    (hs : isSafeCommand (windowOf cur) = true) :
    loopStep o ui p cur lastLen sc initialLen =
      .cont cur.length 0 (autoApprovePrompt (windowOf cur)) ∧
    (containsSub (windowOf cur) "❯ 1. Yes" = true →
      autoApprovePrompt (windowOf cur) = ["1"]) ∧
    (containsSub (windowOf cur) "❯ 1. Yes" = false →
      containsSub (windowOf cur) "[Y/n]" = true →
      autoApprovePrompt (windowOf cur) = ["Y"]) ∧
    (containsSub (windowOf cur) "❯ 1. Yes" = false →
      containsSub (windowOf cur) "[Y/n]" = false →
      containsSub (windowOf cur) "Do you want to proceed?" = true →
      autoApprovePrompt (windowOf cur) = ["y"]) ∧
    (containsSub (windowOf cur) "❯ 1. Yes" = false →
      containsSub (windowOf cur) "[Y/n]" = false →
      containsSub (windowOf cur) "Do you want to proceed?" = false →
      autoApprovePrompt (windowOf cur) = []) := by
  refine ⟨by simp [loopStep, hgrow, hp, hs], ?_, ?_, ?_, ?_⟩ <;>
    intros <;> simp [autoApprovePrompt, *]

theorem C4_token_amended_witness :
    loopStep oStub "u" "p" ["❯ 1. Yes ls"] 0 0 0 = .cont 1 0 ["1"] := by
  have h := C4_token_amended oStub "u" "p" ["❯ 1. Yes ls"] 0 0 0 (by decide) (by decide)
    (by decide)
  rw [h.1]
  decide

/-- C3: when a detected prompt is classified Unsafe (and the secondary
model answers the clarification request), the loop ends at that tick with
no session write from that point on, the clarification prompt is composed
from the user input, the prompt evidence and the persona text via
`aniPrompt`, and the reply is returned as the outcome tagged
`claude+prompt+gemma`; at the top level the only session write of the
whole request is the dispatched request text. -/
theorem C3_escalation (o : String → GenResult) (ui p : String)
    (buf0 : List String) (bufAt : Nat → List String)
    (fuel attempt lastLen sc : Nat) (resp : String)
    (hgrow : lastLen < (bufAt attempt).length)
    (hp : hasPermissionPrompt (windowOf (bufAt attempt)) = true)
    (hnosafe : isSafeCommand (windowOf (bufAt attempt)) = false)
    (hok : o (aniPrompt ui (windowOf (bufAt attempt)) p) = { response := some resp })
    (hne : resp.isEmpty = false) :
    runLoopAux o ui p bufAt buf0.length (fuel + 1) attempt lastLen sc =
      ⟨.escalated resp, [], attempt + 1⟩ ∧
    (isTechnical ui = true → attempt = 0 → fuel = 59 → lastLen = buf0.length → sc = 0 →
      processRequest o ui p true buf0 bufAt =
        ({ response := some resp, source := some "claude+prompt+gemma" },
         [enhancedInput ui])) := by
  have hstep : loopStep o ui p (bufAt attempt) lastLen sc buf0.length = .escalate resp := by
    simp [loopStep, handlePromptViaAni, hgrow, hp, hnosafe, hok, genOk, jsTruthy, hne]
  have hrun : runLoopAux o ui p bufAt buf0.length (fuel + 1) attempt lastLen sc =
      ⟨.escalated resp, [], attempt + 1⟩ := by
    simp only [runLoopAux]
    rw [hstep]
  refine ⟨hrun, fun htech h0 h59 hll hsc => ?_⟩
  subst h0 h59 hll hsc
  unfold processRequest
  rw [if_pos (by simp [htech])]
  simp only [maxWait]
  rw [show (60 : Nat) = 59 + 1 from rfl, hrun]

theorem C3_escalation_witness :
    processRequest oAsk uiDel "P" true [] (fun _ => [wUnsafe]) =
      ({ response := some "ask user", source := some "claude+prompt+gemma" },
       [enhancedInput uiDel]) := by
  exact (C3_escalation oAsk uiDel "P" [] (fun _ => [wUnsafe]) 59 0 0 0 "ask user"
    (by decide) (by decide) (by decide) rfl (by decide)).2 (by decide) rfl rfl rfl rfl

theorem runLoopAux_no_growth (o : String → GenResult) (ui p : String)
    (buf0 : List String) (bufAt : Nat → List String)
    (hstall : ∀ t, bufAt t = buf0) :
    ∀ fuel attempt sc,
      runLoopAux o ui p bufAt buf0.length fuel attempt buf0.length sc =
        ⟨.timedOut, [], attempt + fuel⟩ := by
  intro fuel
  induction fuel with
  | zero => intro attempt sc; rfl
  | succ f ih =>
    intro attempt sc
    have hstep : loopStep o ui p (bufAt attempt) buf0.length sc buf0.length =
        .cont buf0.length (sc + 1) [] := by
      rw [hstall]
      unfold loopStep
      rw [if_neg (by omega)]
      simp
    simp only [runLoopAux]
    rw [hstep]
    simp [ih (attempt + 1) (sc + 1)]
    omega

/-- C5: if the output log never grows after dispatch, the polling loop
runs for exactly the configured maximum tick count (`maxWait`, 60 ticks),
performs no session write, ends in the timeout exit, and the request is
answered by the direct secondary-model-only path (`pureGemma`), whose
outcome carries the `gemma` source tag when the model call succeeds —
not a hard failure. -/
theorem C5_timeout (o : String → GenResult) (ui p : String)
    (buf0 : List String) (bufAt : Nat → List String)
    (htech : isTechnical ui = true)
    (hstall : ∀ t, bufAt t = buf0) :
    runLoopAux o ui p bufAt buf0.length maxWait 0 buf0.length 0 =
      ⟨.timedOut, [], maxWait⟩ ∧
    (processRequest o ui p true buf0 bufAt).1 = pureGemma o ui p ∧
    (jsTruthy (o (fullPrompt ui p)).error = false →
      (processRequest o ui p true buf0 bufAt).1.source = some "gemma") := by
  have hrun := runLoopAux_no_growth o ui p buf0 bufAt hstall maxWait 0 0
  have hrun' : runLoopAux o ui p bufAt buf0.length maxWait 0 buf0.length 0 =
      ⟨.timedOut, [], maxWait⟩ := by
    rw [hrun]
    simp
  have hproc : (processRequest o ui p true buf0 bufAt).1 = pureGemma o ui p := by
    unfold processRequest
    rw [if_pos (by simp [htech])]
    simp only [hrun', hstall]
    simp
  refine ⟨hrun', hproc, fun herr => ?_⟩
  rw [hproc]
  unfold pureGemma
  rw [if_neg (by simp [herr])]

theorem C5_timeout_witness :
    runLoopAux oHi "list files" "P" (fun _ => ([] : List String)) 0 maxWait 0 0 0 =
      ⟨.timedOut, [], maxWait⟩ ∧
    (processRequest oHi "list files" "P" true [] (fun _ => [])).1 =
      pureGemma oHi "list files" "P" := by
  have h := C5_timeout oHi "list files" "P" [] (fun _ => []) (by decide) (fun _ => rfl)
  exact ⟨h.1, h.2.1⟩

/-- C6 counterexample: with stability reached and key content extracted,
the secondary model errors on the assisted-path prompt (`genOk = false`),
yet the outcome is not a tagged Failure: the request falls through to the
direct path, the secondary model is called again with the direct prompt,
and its reply is returned with the `gemma` source tag. -/
theorem C6_retry_cex :
    genOk (ollamaC6 (simplePrompt uiC6 keyC6 personaC6)) = false ∧
    (runLoopAux ollamaC6 uiC6 personaC6 bufAtC6 0 maxWait 0 0 0).exit = .broke ∧
    (processRequest ollamaC6 uiC6 personaC6 true [] bufAtC6).1 =
      { response := some "hi", source := some "gemma" } := by
  decide

/-- C6 amended: an error from the secondary model in the assisted path is
not surfaced as a Failure; the request falls through to the direct path,
where the secondary model is invoked once more with the direct prompt,
and only an error of that direct call is returned as a tagged Failure. -/
theorem C6_retry_amended (o : String → GenResult) (ui p : String)
    (buf0 : List String) (bufAt : Nat → List String)
    (htech : isTechnical ui = true)
    (hexit : (runLoopAux o ui p bufAt buf0.length maxWait 0 buf0.length 0).exit = .broke ∨
      (runLoopAux o ui p bufAt buf0.length maxWait 0 buf0.length 0).exit = .timedOut)
    (herr : genOk (o (simplePrompt ui
        (extractKeyContent (jsTrim (joinNl
          ((bufAt (runLoopAux o ui p bufAt buf0.length maxWait 0 buf0.length 0).ticks).drop
            buf0.length)))) p)) = false) :
    (processRequest o ui p true buf0 bufAt).1 = pureGemma o ui p ∧
    (jsTruthy (o (fullPrompt ui p)).error = true →
      (processRequest o ui p true buf0 bufAt).1 = { error := (o (fullPrompt ui p)).error }) := by
  have hproc : (processRequest o ui p true buf0 bufAt).1 = pureGemma o ui p := by
    unfold processRequest
    rw [if_pos (by simp [htech])]
    rcases hexit with he | he <;> simp [he, herr]
  refine ⟨hproc, fun hfail => ?_⟩
  rw [hproc]
  simp [pureGemma, hfail]

theorem C6_retry_amended_witness :
    (processRequest ollamaC6 uiC6 personaC6 true [] bufAtC6).1 =
      pureGemma ollamaC6 uiC6 personaC6 := by
  exact (C6_retry_amended ollamaC6 uiC6 personaC6 [] bufAtC6 (by decide)
    (Or.inl (by decide)) (by decide)).1
